import Mathlib

/-!
# Verification of the `nap` PCM playback engine (`nap.ino`)

Shallow embedding of the playback core of `nap.ino`: the globals
(`playing`, `lastSample`, `dataCount`), the SD-file byte source
(modelled as the list of remaining bytes), the relevant timer registers
(bits `OCIE1A` of `TIMSK1`, `CS10` of `TCCR1B` and `TCCR2B`, the
compare registers `OCR1A` and `OCR2A`) and the speaker pin level.

The duty register `OCR2A` is modelled as `Option Nat`: `some v` means
the register holds the known byte `v`; `none` means the register was
written with the indeterminate value returned by `nextByte()` when it
falls off the end of the function on the exhausted path (no `return`
statement in the `else` branch).

The functions `nextByte`, `stopPlayback`, the `ISR(TIMER1_COMPA_vect)`
body (here `tick`) and `startPlayback` are translated line by line from
the source.  `run data n` is the state after `startPlayback` on a file
whose remaining audio bytes are `data`, followed by `n` sample-clock
interrupts.
-/

set_option autoImplicit false

namespace Nap

/-- The conceptual playback state of the controller.  The code has no
such variable; the three states correspond to the three branches of the
interrupt handler, which the source comments label `Playing`,
`Fade out` and `Stopped`. -/
inductive PlaybackState where
  | Idle
  | Playing
  | FadingOut
deriving DecidableEq

/-- The machine state: the program's globals, the remaining bytes of
`myFile`, and the hardware registers the claims are about. -/
structure EngineState where
  playing : Bool
  lastSample : Nat
  dataCount : Nat
  stream : List Nat
  ocr2 : Option Nat
  ocr1a : Nat
  ocie1a : Bool
  cs10t1 : Bool
  cs10t2 : Bool
  pinLevel : Bool
deriving DecidableEq

/-- CPU clock frequency of the target board (`F_CPU`), 16 MHz. -/
def F_CPU : Nat := 16000000

/-- The fixed sample rate (`#define SAMPLE_RATE 8000`). -/
def SAMPLE_RATE : Nat := 8000

/-- `nextByte()` (nap.ino lines 89-97).  If the file has a byte
available it is stored in `lastSample`, `dataCount` is incremented and
the byte is returned; otherwise `playing` is cleared and the function
returns no defined value (`none`): the C source reaches the end of a
value-returning function without a `return` statement. -/
def nextByte (s : EngineState) : Option Nat × EngineState :=
  match s.stream with
  | b :: rest =>
      (some b, { s with lastSample := b, dataCount := s.dataCount + 1, stream := rest })
  | [] => (none, { s with playing := false })

/-- `stopPlayback()` (nap.ino lines 123-129): disable the per-sample
interrupt and both timers, drive the speaker pin low. -/
def stopPlayback (s : EngineState) : EngineState :=
  { s with ocie1a := false, cs10t1 := false, cs10t2 := false, pinLevel := false }

/-- The body of `ISR(TIMER1_COMPA_vect)` (nap.ino lines 132-139):
if `playing`, write `nextByte()` to the duty register; else if
`lastSample > 0`, write `lastSample--` (post-decrement: the old value
is written) to the duty register; else `stopPlayback()`. -/
def tick (s : EngineState) : EngineState :=
  if s.playing then
    ((fun r => { r.2 with ocr2 := r.1 }) (nextByte s))
  else if 0 < s.lastSample then
    { s with ocr2 := some s.lastSample, lastSample := s.lastSample - 1 }
  else
    stopPlayback s

/-- `startPlayback()` (nap.ino lines 141-174): enable the PWM carrier
timer, write `nextByte()` to the duty register, enable the per-sample
timer with compare value `F_CPU / SAMPLE_RATE`, enable its interrupt,
and set `playing = true` (unconditionally, as the source does). -/
def startPlayback (s : EngineState) : EngineState :=
  ((fun r =>
      { r.2 with
        ocr2 := r.1, cs10t1 := true, ocr1a := F_CPU / SAMPLE_RATE,
        ocie1a := true, playing := true })
    (nextByte { s with cs10t2 := true }))

/-- The globals after `setup()` just before `startPlayback()`:
`playing = false` and `lastSample = 0` (zero-initialised globals),
`dataCount = 0`, the file positioned at the audio bytes `data`,
all modelled registers at their reset values. -/
def initState (data : List Nat) : EngineState :=
  { playing := false, lastSample := 0, dataCount := 0, stream := data,
    ocr2 := some 0, ocr1a := 0, ocie1a := false, cs10t1 := false,
    cs10t2 := false, pinLevel := false }

/-- The state immediately after `startPlayback()` on a file with audio
bytes `data`. -/
def startFrom (data : List Nat) : EngineState :=
  startPlayback (initState data)

/-- The state after `startPlayback()` and `n` sample-clock interrupts. -/
def run (data : List Nat) (n : Nat) : EngineState :=
  tick^[n] (startFrom data)

/-- The conceptual state, read off the interrupt handler's branch
structure: `playing` means `Playing`; otherwise a positive `lastSample`
means `FadingOut`; otherwise `Idle` (the source's `Stopped`). -/
def playState (s : EngineState) : PlaybackState :=
  if s.playing then PlaybackState.Playing
  else if 0 < s.lastSample then PlaybackState.FadingOut
  else PlaybackState.Idle

/-- The flag the mainline polls in `loop()` (`while (playing) ...`). -/
def isPlaying (s : EngineState) : Bool := s.playing

/-- Both clocks running: per-sample interrupt enabled, per-sample timer
clocked, PWM carrier timer clocked. -/
abbrev clocksEnabled (s : EngineState) : Prop :=
  s.ocie1a = true ∧ s.cs10t1 = true ∧ s.cs10t2 = true

/-- Both clocks stopped and the speaker pin held low, as `stopPlayback`
leaves them. -/
abbrev clocksDisabled (s : EngineState) : Prop :=
  s.ocie1a = false ∧ s.cs10t1 = false ∧ s.cs10t2 = false ∧ s.pinLevel = false

/-- A tick on state `s` fetches (and writes) a sample iff the handler
runs the `playing` branch and the file still has a byte. -/
def fetchedOnTick (s : EngineState) : Bool :=
  s.playing && !s.stream.isEmpty

/-! ## Basic stepping lemmas -/

theorem run_succ (data : List Nat) (n : Nat) :
    run data (n + 1) = tick (run data n) :=
  Function.iterate_succ_apply' tick n (startFrom data)

theorem startFrom_cons (b : Nat) (rest : List Nat) :
    startFrom (b :: rest) =
      { playing := true, lastSample := b, dataCount := 1, stream := rest,
        ocr2 := some b, ocr1a := F_CPU / SAMPLE_RATE, ocie1a := true,
        cs10t1 := true, cs10t2 := true, pinLevel := false } := rfl

theorem startFrom_nil :
    startFrom [] =
      { playing := true, lastSample := 0, dataCount := 0, stream := [],
        ocr2 := none, ocr1a := F_CPU / SAMPLE_RATE, ocie1a := true,
        cs10t1 := true, cs10t2 := true, pinLevel := false } := rfl

theorem tick_fields_cons (s : EngineState) (b : Nat) (rest : List Nat)
    (hp : s.playing = true) (hs : s.stream = b :: rest) :
    (tick s).playing = true ∧ (tick s).stream = rest ∧
    (tick s).lastSample = b ∧ (tick s).ocr2 = some b ∧
    (tick s).dataCount = s.dataCount + 1 ∧
    (tick s).ocie1a = s.ocie1a ∧ (tick s).cs10t1 = s.cs10t1 ∧
    (tick s).cs10t2 = s.cs10t2 ∧ (tick s).pinLevel = s.pinLevel := by
  simp [tick, hp, nextByte, hs]

theorem tick_fields_nil (s : EngineState)
    (hp : s.playing = true) (hs : s.stream = []) :
    (tick s).playing = false ∧ (tick s).stream = [] ∧
    (tick s).lastSample = s.lastSample ∧ (tick s).ocr2 = none ∧
    (tick s).dataCount = s.dataCount ∧
    (tick s).ocie1a = s.ocie1a ∧ (tick s).cs10t1 = s.cs10t1 ∧
    (tick s).cs10t2 = s.cs10t2 ∧ (tick s).pinLevel = s.pinLevel := by
  simp [tick, hp, nextByte, hs]

theorem tick_fields_fade (s : EngineState)
    (hp : s.playing = false) (hl : 0 < s.lastSample) :
    (tick s).playing = false ∧ (tick s).lastSample = s.lastSample - 1 ∧
    (tick s).ocr2 = some s.lastSample ∧ (tick s).stream = s.stream ∧
    (tick s).ocie1a = s.ocie1a ∧ (tick s).cs10t1 = s.cs10t1 ∧
    (tick s).cs10t2 = s.cs10t2 ∧ (tick s).pinLevel = s.pinLevel := by
  simp [tick, hp, hl]

theorem tick_stopped (s : EngineState)
    (hp : s.playing = false) (hl : s.lastSample = 0) :
    tick s = stopPlayback s := by
  simp [tick, hp, hl]

theorem tick_preserves_notPlaying (s : EngineState) (h : s.playing = false) :
    (tick s).playing = false ∧ (tick s).lastSample = s.lastSample - 1 := by
  by_cases hl : 0 < s.lastSample
  · exact ⟨(tick_fields_fade s h hl).1, (tick_fields_fade s h hl).2.1⟩
  · have h0 : s.lastSample = 0 := by omega
    rw [tick_stopped s h h0]
    exact ⟨h, by simp [stopPlayback, h0]⟩

theorem notPlaying_iterate (s : EngineState) (h : s.playing = false) (k : Nat) :
    (tick^[k] s).playing = false ∧ (tick^[k] s).lastSample = s.lastSample - k := by
  induction k with
  | zero => simpa using h
  | succ m ih =>
    rw [Function.iterate_succ_apply']
    have h2 := tick_preserves_notPlaying _ ih.1
    exact ⟨h2.1, by rw [h2.2, ih.2]; omega⟩

/-! ## The derived playback state -/

theorem playState_eq_playing_iff (s : EngineState) :
    playState s = PlaybackState.Playing ↔ s.playing = true := by
  cases hp : s.playing
  · by_cases hl : 0 < s.lastSample <;> simp [playState, hp, hl]
  · simp [playState, hp]

theorem playState_fadingOut_not_playing (s : EngineState)
    (h : playState s = PlaybackState.FadingOut) : s.playing = false := by
  cases hp : s.playing
  · rfl
  · simp [playState, hp] at h

theorem playState_idle_elim (s : EngineState)
    (h : playState s = PlaybackState.Idle) :
    s.playing = false ∧ s.lastSample = 0 := by
  cases hp : s.playing
  · by_cases hl : 0 < s.lastSample
    · simp [playState, hp, hl] at h
    · exact ⟨rfl, by omega⟩
  · simp [playState, hp] at h

/-! ## Clock-enable invariant -/

theorem tick_clocks_preserved (s : EngineState)
    (h : s.playing = true ∨ 0 < s.lastSample) :
    (tick s).ocie1a = s.ocie1a ∧ (tick s).cs10t1 = s.cs10t1 ∧
    (tick s).cs10t2 = s.cs10t2 := by
  rcases h with hp | hl
  · cases hs : s.stream <;> simp [tick, hp, nextByte, hs]
  · cases hp : s.playing
    · simp [tick, hp, hl]
    · cases hs : s.stream <;> simp [tick, hp, nextByte, hs]

theorem clocks_tick (s : EngineState)
    (h : playState s ≠ PlaybackState.Idle → clocksEnabled s) :
    playState (tick s) ≠ PlaybackState.Idle → clocksEnabled (tick s) := by
  intro hne
  by_cases hid : playState s = PlaybackState.Idle
  · exfalso
    obtain ⟨hp, hl⟩ := playState_idle_elim s hid
    apply hne
    rw [tick_stopped s hp hl]
    simp [playState, stopPlayback, hp, hl]
  · have hcl := h hid
    have hpres : s.playing = true ∨ 0 < s.lastSample := by
      cases hp : s.playing
      · by_cases hl : 0 < s.lastSample
        · exact Or.inr hl
        · exact absurd (show playState s = PlaybackState.Idle by
            simp [playState, hp, hl]) hid
      · exact Or.inl rfl
    have hc := tick_clocks_preserved s hpres
    exact ⟨hc.1.trans hcl.1, hc.2.1.trans hcl.2.1, hc.2.2.trans hcl.2.2⟩

theorem clocks_run (data : List Nat) (n : Nat) :
    playState (run data n) ≠ PlaybackState.Idle → clocksEnabled (run data n) := by
  induction n with
  | zero =>
    intro _
    cases data with
    | nil => rw [show run [] 0 = startFrom [] from rfl, startFrom_nil]; exact ⟨rfl, rfl, rfl⟩
    | cons b rest =>
      rw [show run (b :: rest) 0 = startFrom (b :: rest) from rfl, startFrom_cons]
      exact ⟨rfl, rfl, rfl⟩
  | succ m ih =>
    rw [run_succ]
    exact clocks_tick _ ih

/-! ## Consuming the stream during `Playing` -/

theorem run_stream (data : List Nat) (k : Nat) (h : k + 1 ≤ data.length) :
    (run data k).playing = true ∧ (run data k).stream = data.drop (k + 1) := by
  induction k with
  | zero =>
    cases data with
    | nil => simp at h
    | cons b rest =>
      rw [show run (b :: rest) 0 = startFrom (b :: rest) from rfl, startFrom_cons]
      exact ⟨rfl, rfl⟩
  | succ m ih =>
    have hm := ih (by omega)
    have hlp : 0 < ((run data m).stream).length := by
      rw [hm.2, List.length_drop]
      omega
    obtain ⟨b, rest, hbr⟩ := List.exists_cons_of_ne_nil (List.length_pos.mp hlp)
    have hf := tick_fields_cons (run data m) b rest hm.1 hbr
    have hdd : rest = data.drop (m + 1 + 1) := by
      have h1 : ((run data m).stream).tail = data.drop (m + 1 + 1) := by
        rw [hm.2, List.tail_drop]
      rw [hbr] at h1
      simpa using h1
    rw [run_succ]
    exact ⟨hf.1, hf.2.1.trans hdd⟩

/-! ## Claims -/

/-- Claim C1 (amended): during fade-out, on every tick with
`lastSample > 0`, the handler first writes the current `lastSample` to
the PWM duty register and then decrements it (`_OCR_ = lastSample--` is
a post-decrement).  For the stream `[10]` the duty register holds 10
after `startPlayback` (which consumes the sample), the exhaustion tick
writes the indeterminate `nextByte()` value, and the ten fade-out ticks
write 10, 9, ..., 1; the duty value 0 is never written — the following
tick enters Idle and forces the pin low instead. -/
theorem fade_tick_postdecrement :
    (∀ s : EngineState, s.playing = false → 0 < s.lastSample →
      (tick s).ocr2 = some s.lastSample ∧ (tick s).lastSample = s.lastSample - 1) ∧
    (run [10] 0).ocr2 = some 10 ∧
    (List.range 10).map (fun k => (run [10] (k + 2)).ocr2) =
      [some 10, some 9, some 8, some 7, some 6, some 5, some 4, some 3,
       some 2, some 1] ∧
    playState (run [10] 12) = PlaybackState.Idle ∧
    clocksDisabled (run [10] 12) := by
  refine ⟨fun s hp hl => ?_, by decide, by decide, by decide, by decide⟩
  have hf := tick_fields_fade s hp hl
  exact ⟨hf.2.2.1, hf.2.1⟩

/-- Witness for C1: the fade tick taken from the state one tick after
`startPlayback` on `[10]` (where `lastSample = 10`) writes the
pre-decrement value and decrements. -/
theorem fade_tick_postdecrement_w :
    (tick (run [10] 1)).ocr2 = some (run [10] 1).lastSample ∧
    (tick (run [10] 1)).lastSample = (run [10] 1).lastSample - 1 :=
  fade_tick_postdecrement.1 (run [10] 1) (by decide) (by decide)

/-- Counterexample to C1 as stated: on the first fade-out tick for the
stream `[10]` the value written to the duty register is 10, not the
decremented 9 the claim requires. -/
theorem fade_tick_postdecrement_cex :
    (run [10] 2).ocr2 = some 10 ∧ (run [10] 2).ocr2 ≠ some 9 ∧
    (run [10] 2).lastSample = 9 := by decide

/-- Claim C2 (amended): the `playing` flag polled by `loop()` is true
exactly while the playback state is `Playing`; it is already false
throughout `FadingOut` (it is cleared by `nextByte()` on the exhaustion
tick, not on the transition to `Idle`). -/
theorem playing_flag_only_playing (data : List Nat) (n : Nat) :
    (isPlaying (run data n) = true ↔
      playState (run data n) = PlaybackState.Playing) ∧
    (playState (run data n) = PlaybackState.FadingOut →
      isPlaying (run data n) = false) :=
  ⟨(playState_eq_playing_iff (run data n)).symm,
   fun h => playState_fadingOut_not_playing _ h⟩

/-- Witness for C2: after `startPlayback` on `[10]` and one tick the
state is `FadingOut` and the polled flag is already false. -/
theorem playing_flag_only_playing_w :
    isPlaying (run [10] 1) = false :=
  (playing_flag_only_playing [10] 1).2 (by decide)

/-- Counterexample to C2 as stated: one tick after `startPlayback` on
`[10]` the engine is in `FadingOut` (with ten decay ticks still to
come and both clocks still enabled), yet `isPlaying` is false. -/
theorem playing_flag_only_playing_cex :
    playState (run [10] 1) = PlaybackState.FadingOut ∧
    isPlaying (run [10] 1) = false ∧ (run [10] 1).ocie1a = true := by decide

/-- Claim C3 (amended): on the tick at which the byte source first
reports exhaustion the handler does transition from `Playing` towards
fade-out on that same tick (`playing` is cleared), but it still writes
the PWM duty register on that tick — with the indeterminate value
`nextByte()` falls off the end with (`none` in the model); `lastSample`
is untouched, and the first defined decay write of `lastSample` happens
on the following tick. -/
theorem exhaustion_tick_writes (s : EngineState)
    (hp : s.playing = true) (hs : s.stream = []) :
    (tick s).playing = false ∧ (tick s).ocr2 = none ∧
    (tick s).lastSample = s.lastSample ∧
    (0 < s.lastSample →
      playState (tick s) = PlaybackState.FadingOut ∧
      (tick (tick s)).ocr2 = some s.lastSample) := by
  have h1 := tick_fields_nil s hp hs
  refine ⟨h1.1, h1.2.2.2.1, h1.2.2.1, fun hl => ?_⟩
  have hl2 : 0 < (tick s).lastSample := by rw [h1.2.2.1]; exact hl
  constructor
  · simp [playState, h1.1, hl2]
  · rw [(tick_fields_fade (tick s) h1.1 hl2).2.2.1, h1.2.2.1]

/-- Witness for C3: for the stream `[5]` the state right after
`startPlayback` is playing with an exhausted source; the next tick
clears the flag, writes the indeterminate value, and the tick after
that performs the first decay write. -/
theorem exhaustion_tick_writes_w :
    (tick (run [5] 0)).playing = false ∧ (tick (run [5] 0)).ocr2 = none ∧
    (tick (run [5] 0)).lastSample = (run [5] 0).lastSample ∧
    playState (tick (run [5] 0)) = PlaybackState.FadingOut ∧
    (tick (tick (run [5] 0))).ocr2 = some (run [5] 0).lastSample := by
  have h := exhaustion_tick_writes (run [5] 0) (by decide) (by decide)
  exact ⟨h.1, h.2.1, h.2.2.1, (h.2.2.2 (by decide)).1, (h.2.2.2 (by decide)).2⟩

/-- Counterexample to C3 as stated: for the stream `[10]` the duty
register holds 10 before the exhaustion tick and holds the indeterminate
`nextByte()` value after it — the handler did write the duty register on
the exhaustion tick, which the claim forbids. -/
theorem exhaustion_tick_writes_cex :
    (run [10] 0).playing = true ∧ (run [10] 0).stream = [] ∧
    (run [10] 0).ocr2 = some 10 ∧ (run [10] 1).ocr2 = none ∧
    (run [10] 1).ocr2 ≠ (run [10] 0).ocr2 := by decide

/-- Claim C5: from any non-playing state, successive ticks never
increase `lastSample`; it reaches exactly 0 after `lastSample` ticks,
hence after at most 255 ticks whenever the starting value is in
[0, 255]. -/
theorem fade_monotone_reaches_zero (s : EngineState)
    (hp : s.playing = false) :
    (∀ k, (tick^[k + 1] s).lastSample ≤ (tick^[k] s).lastSample) ∧
    (tick^[s.lastSample] s).lastSample = 0 ∧
    (s.lastSample ≤ 255 → (tick^[255] s).lastSample = 0) := by
  refine ⟨fun k => ?_, ?_, fun h255 => ?_⟩
  · rw [Function.iterate_succ_apply']
    have hk := notPlaying_iterate s hp k
    have h2 := tick_preserves_notPlaying _ hk.1
    omega
  · have h2 := (notPlaying_iterate s hp s.lastSample).2
    omega
  · have h2 := (notPlaying_iterate s hp 255).2
    omega

/-- Witness for C5: instantiated at the fade-out entry state of the
stream `[10]` (where `lastSample = 10`). -/
theorem fade_monotone_reaches_zero_w :
    (tick^[0 + 1] (run [10] 1)).lastSample ≤ (tick^[0] (run [10] 1)).lastSample ∧
    (tick^[(run [10] 1).lastSample] (run [10] 1)).lastSample = 0 ∧
    (tick^[255] (run [10] 1)).lastSample = 0 :=
  ⟨(fade_monotone_reaches_zero (run [10] 1) (by decide)).1 0,
   (fade_monotone_reaches_zero (run [10] 1) (by decide)).2.1,
   (fade_monotone_reaches_zero (run [10] 1) (by decide)).2.2 (by decide)⟩

/-- Claim C4 (amended): `startPlayback` sets `playing = true`
unconditionally as its last assignment, so `isPlaying` immediately
after `start()` is true even when the byte source yielded no sample
(overwriting the `playing = false` that the exhausted `nextByte()` set).
For an already-exhausted source the first tick clears the flag again,
the state is then `Idle` with `lastSample = 0`, there are zero decay
ticks, the only duty writes carry the indeterminate `nextByte()` value,
and the second tick shuts both clocks down. -/
theorem start_sets_playing_unconditionally :
    (∀ data : List Nat, (startFrom data).playing = true) ∧
    (startFrom []).ocr2 = none ∧ (startFrom []).dataCount = 0 ∧
    (run [] 1).playing = false ∧ (run [] 1).lastSample = 0 ∧
    playState (run [] 1) = PlaybackState.Idle ∧ (run [] 1).ocr2 = none ∧
    clocksDisabled (run [] 2) := by
  refine ⟨fun data => ?_, by decide, by decide, by decide, by decide,
    by decide, by decide, by decide⟩
  cases data <;> rfl

/-- Counterexample to C4 as stated: after `startPlayback` on the empty
stream, the byte source yielded no sample (`dataCount = 0`), yet the
polled flag is true. -/
theorem start_sets_playing_unconditionally_cex :
    (startFrom []).playing = true ∧ (startFrom []).dataCount = 0 := by decide

/-- Claim C6 (amended): in every reachable state whose playback state
is `Playing` or `FadingOut` both clocks are enabled; but a state in the
`Idle` condition does not yet have its clocks disabled — the shutdown
happens on the next tick, which runs `stopPlayback`, after which both
clocks are disabled, the pin is low, and the state remains `Idle`. -/
theorem idle_shutdown_one_tick_later (data : List Nat) (n : Nat) :
    (playState (run data n) ≠ PlaybackState.Idle →
      clocksEnabled (run data n)) ∧
    (playState (run data n) = PlaybackState.Idle →
      clocksDisabled (tick (run data n)) ∧
      playState (tick (run data n)) = PlaybackState.Idle) := by
  refine ⟨clocks_run data n, fun hid => ?_⟩
  obtain ⟨hp, hl⟩ := playState_idle_elim _ hid
  rw [tick_stopped _ hp hl]
  exact ⟨⟨rfl, rfl, rfl, rfl⟩, by simp [playState, stopPlayback, hp, hl]⟩

/-- Witness for C6: the state right after `startPlayback` on `[10]` is
non-idle with both clocks enabled; ticking the `Idle`-condition state
reached from the empty stream disables both clocks. -/
theorem idle_shutdown_one_tick_later_w :
    clocksEnabled (run [10] 0) ∧ clocksDisabled (tick (run [] 1)) :=
  ⟨(idle_shutdown_one_tick_later [10] 0).1 (by decide),
   ((idle_shutdown_one_tick_later [] 1).2 (by decide)).1⟩

/-- Counterexample to C6 as stated: one tick after `startPlayback` on
the empty stream the playback state is `Idle` (the fade-out completed
with `lastSample = 0`), yet the per-sample interrupt and both timers
are still enabled — the claim requires them disabled in every reachable
`Idle` state. -/
theorem idle_shutdown_one_tick_later_cex :
    playState (run [] 1) = PlaybackState.Idle ∧
    (run [] 1).ocie1a = true ∧ (run [] 1).cs10t1 = true ∧
    (run [] 1).cs10t2 = true := by decide

/-- Claim C7: `stopPlayback` is idempotent — applying it twice yields
exactly the same state as applying it once — and a sample-clock tick
arriving in an already shut-down `Idle` state (`playing = false`,
`lastSample = 0`) is a no-op on the state. -/
theorem stop_idempotent_tick_noop (s : EngineState) :
    stopPlayback (stopPlayback s) = stopPlayback s ∧
    (s.playing = false → s.lastSample = 0 →
      tick (stopPlayback s) = stopPlayback s) := by
  refine ⟨rfl, fun hp hl => ?_⟩
  exact (tick_stopped (stopPlayback s) hp hl).trans rfl

/-- Witness for C7: instantiated at the pre-start state of the empty
stream, which is idle. -/
theorem stop_idempotent_tick_noop_w :
    stopPlayback (stopPlayback (initState [])) = stopPlayback (initState []) ∧
    tick (stopPlayback (initState [])) = stopPlayback (initState []) :=
  ⟨(stop_idempotent_tick_noop (initState [])).1,
   (stop_idempotent_tick_noop (initState [])).2 rfl rfl⟩

/-- Claim C8 (amended): for a stream of length N ≥ 1 the first sample
is fetched and written by `startPlayback` itself (`dataCount = 1`
before any tick); exactly the first N − 1 ticks are handled in
`Playing` with a sample fetched and written (ticks `0 ≤ k < N − 1`);
the Nth `Playing` tick (index N − 1) fetches nothing and transitions
out of `Playing` on that same tick. -/
theorem fetch_tick_count (data : List Nat) (h : 1 ≤ data.length) :
    (run data 0).dataCount = 1 ∧
    (∀ k, k + 2 ≤ data.length → fetchedOnTick (run data k) = true) ∧
    (∀ k, data.length ≤ k + 1 → fetchedOnTick (run data k) = false) ∧
    (run data (data.length - 1)).playing = true ∧
    (run data data.length).playing = false := by
  obtain ⟨m, hm⟩ : ∃ m, data.length = m + 1 := ⟨data.length - 1, by omega⟩
  have hmkey := run_stream data m (by omega)
  have hms : (run data m).stream = [] := by
    rw [hmkey.2, ← hm, List.drop_length]
  have hmp : (run data (m + 1)).playing = false := by
    rw [run_succ]
    exact (tick_fields_nil _ hmkey.1 hms).1
  have hlater : ∀ j, (run data (m + 1 + j)).playing = false := by
    intro j
    have hsplit : run data (m + 1 + j) = tick^[j] (run data (m + 1)) := by
      rw [run, run, Nat.add_comm (m + 1) j, Function.iterate_add_apply]
    rw [hsplit]
    exact (notPlaying_iterate _ hmp j).1
  refine ⟨?_, fun k hk => ?_, fun k hk => ?_, ?_, ?_⟩
  · obtain ⟨b, rest, hbr⟩ :=
      List.exists_cons_of_ne_nil (List.length_pos.mp (show 0 < data.length by omega))
    rw [hbr, show run (b :: rest) 0 = startFrom (b :: rest) from rfl, startFrom_cons]
  · have hrk := run_stream data k (by omega)
    have hne : (run data k).stream ≠ [] := by
      rw [hrk.2]
      intro he
      have hlen := congrArg List.length he
      rw [List.length_drop] at hlen
      simp at hlen
      omega
    obtain ⟨c, t, hct⟩ := List.exists_cons_of_ne_nil hne
    simp [fetchedOnTick, hrk.1, hct]
  · rcases Nat.lt_or_ge k (m + 1) with hkm | hkm
    · have hk_eq : k = m := by omega
      subst hk_eq
      simp [fetchedOnTick, hms]
    · obtain ⟨j, hj⟩ : ∃ j, k = m + 1 + j := ⟨k - (m + 1), by omega⟩
      subst hj
      simp [fetchedOnTick, hlater j]
  · have hd1 : data.length - 1 = m := by omega
    rw [hd1]
    exact hmkey.1
  · rw [hm]
    exact hmp

/-- Witness for C8: for the two-sample stream `[5, 6]`, `startPlayback`
fetched the first sample, tick 0 fetches the second, and after tick 2
(the exhaustion tick) the engine is no longer playing. -/
theorem fetch_tick_count_w :
    (run [5, 6] 0).dataCount = 1 ∧ fetchedOnTick (run [5, 6] 0) = true ∧
    (run [5, 6] 2).playing = false :=
  ⟨(fetch_tick_count [5, 6] (by decide)).1,
   (fetch_tick_count [5, 6] (by decide)).2.1 0 (by decide),
   (fetch_tick_count [5, 6] (by decide)).2.2.2.2⟩

/-- Counterexample to C8 as stated: for the stream `[10]` (N = 1) the
claim requires exactly one `Playing` tick with a sample fetched and
written; but the only tick handled while playing (tick 0, after which
`playing` is false) fetches nothing — the single sample was already
consumed by `startPlayback`, so the count of fetching ticks is 0, not 1. -/
theorem fetch_tick_count_cex :
    (run [10] 0).playing = true ∧ fetchedOnTick (run [10] 0) = false ∧
    (run [10] 1).playing = false ∧
    (run [10] 1).dataCount = (run [10] 0).dataCount := by decide

/-- Claim C9: `startPlayback` programs the sample-clock compare
register `OCR1A` with `F_CPU / SAMPLE_RATE`, exact integer arithmetic
that yields exactly 2000 for a 16 MHz clock and an 8000 Hz sample rate
(the division is exact: 8000 · 2000 = 16000000). -/
theorem sample_clock_divisor_exact (data : List Nat) :
    (startFrom data).ocr1a = F_CPU / SAMPLE_RATE ∧
    F_CPU / SAMPLE_RATE = 2000 ∧
    SAMPLE_RATE * (F_CPU / SAMPLE_RATE) = F_CPU := by
  refine ⟨?_, by decide, by decide⟩
  cases data <;> rfl

/-- Claim C10, code evaluated at the failing input: when the byte
source is exhausted, `nextByte()` clears `playing` and produces no
defined return value (the C function ends without a `return` on that
path), and the interrupt handler then writes that indeterminate value
to the PWM duty register. -/
theorem nextByte_exhausted_indeterminate :
    (nextByte (initState [])).1 = none ∧
    (nextByte (initState [])).2.playing = false ∧
    (tick (startFrom [])).ocr2 = none := by decide

end Nap
